import Mathlib

/-!
Shallow embedding of the product-registration core of `src/main.py`
(Confitería Dulcino, Streamlit + Supabase).

Modelling conventions:
* Python strings are `List Char` (Python `len` counts characters, as does
  `List.length`); Python `str.strip()` is `pyStrip`, with whitespace
  modelled by `Char.isWhitespace`.
* Python floats are rationals (`ℚ`): the claims only involve order
  comparisons and exact decimal values, where IEEE floats and rationals
  agree on the inputs considered.
* The `precio` argument of `validar` can be any Python value; `float(x)`
  either yields a number or raises.  We quotient the argument by that
  behaviour: `PrecioVal.num q` stands for any value with `float(x) = q`,
  `PrecioVal.invalid` for any value on which `float` raises.
* Exceptions are an `Except` monad: `validarE` is the embedding of
  `validar` with the `try/except` visible; `validar` is the pure result.
* Storage (Supabase) is a list of row payloads; `sb_insert` / `sb_update`
  / `sb_delete` become steps of a transition relation on that list.
-/

/-- Python `str.strip()`: drop whitespace from both ends. -/
def pyStrip (l : List Char) : List Char :=
  ((l.dropWhile Char.isWhitespace).reverse.dropWhile Char.isWhitespace).reverse

/-- `main.py` line 17: the fixed category catalog `ALLOWED_CATEGORIES`. -/
def ALLOWED_CATEGORIES : List (List Char) :=
  ["Chocolates".data, "Caramelos".data, "Mashmelos".data,
   "Galletas".data, "Salados".data, "Gomas de mascar".data]

/-- A Python value as seen by `categorias_to_list`: a string or anything
else (the `isinstance(categorias_str, str)` test only cares which). -/
inductive PyObj where
  | str (s : List Char)
  | notStr (tag : Nat)
deriving DecidableEq

/-- Split a character list at every `;` (Python `s.split(";")`;
`split` on the empty string yields `[""]`). -/
def splitSemi : List Char → List (List Char)
  | [] => [[]]
  | c :: rest =>
    if c = ';' then [] :: splitSemi rest
    else
      match splitSemi rest with
      | [] => [[c]]
      | h :: t => (c :: h) :: t

/-- `main.py` lines 24-28: `categorias_to_list` — split on `;`, strip each
piece, keep the non-empty ones; non-strings give `[]`. -/
def categorias_to_list : PyObj → List (List Char)
  | .notStr _ => []
  | .str s => ((splitSemi s).map pyStrip).filter (fun p => p ≠ [])

/-- Python `";".join(parts)`. -/
def joinSemi : List (List Char) → List Char
  | [] => []
  | [p] => p
  | p :: rest => p ++ ';' :: joinSemi rest

/-- `main.py` lines 30-32: `categorias_to_string` — join with `;`. -/
def categorias_to_string (categorias_list : List (List Char)) : List Char :=
  joinSemi categorias_list

/-- The Python exception raised by `float` on an unparseable value. -/
inductive PyExn where
  | valueError
deriving DecidableEq

/-- The `precio` argument, quotiented by the behaviour of `float`:
`num q` is any value parsing to `q`, `invalid` any value that raises. -/
inductive PrecioVal where
  | num (q : ℚ)
  | invalid
deriving DecidableEq

/-- Python `float(precio)`: returns the parsed number or raises. -/
def pyFloat : PrecioVal → Except PyExn ℚ
  | .num q => .ok q
  | .invalid => .error .valueError

/-- Rejection message of the name check (`main.py` line 36). -/
def nombreMsg : List Char :=
  "El nombre es obligatorio y debe de tener <= 20 caracteres.".data

/-- Rejection message of the price-parse check (`main.py` line 40). -/
def precioParseMsg : List Char :=
  "Por favor verifique el campo precio.".data

/-- Rejection message of the price-range check (`main.py` line 42). -/
def precioRangeMsg : List Char :=
  "El precio debe ser mayor a 0 y menor a 999".data

/-- Rejection message of the empty-categories check (`main.py` line 44). -/
def categoriaVaciaMsg : List Char :=
  "Debe elegir al menos una categoría".data

/-- Rejection message `f"Categoría inválida: {c}"` (`main.py` line 47). -/
def categoriaInvalidaMsg (c : List Char) : List Char :=
  "Categoría inválida: ".data ++ c

/-- The first category not in the catalog, if any: the `for c in
categorias` loop of `main.py` lines 45-47 returns at the first offender. -/
def firstInvalidCat (cats : List (List Char)) : Option (List Char) :=
  cats.find? (fun c => !(ALLOWED_CATEGORIES.contains c))

/-- `main.py` lines 34-48: `validar`, with the `try/except` around
`float` made explicit in the `Except` monad.  A `.error` result would be
an uncaught exception escaping `validar`. -/
def validarE (nombre : List Char) (precio : PrecioVal)
    (categorias : List (List Char)) : Except PyExn (Option (List Char)) :=
  if nombre = [] ∨ (pyStrip nombre).length = 0 ∨ 20 < (pyStrip nombre).length then
    .ok (some nombreMsg)
  else
    match pyFloat precio with
    | .error _ => .ok (some precioParseMsg)
    | .ok p =>
      if ¬(0 < p ∧ p < 999) then .ok (some precioRangeMsg)
      else if categorias = [] then .ok (some categoriaVaciaMsg)
      else
        match firstInvalidCat categorias with
        | some c => .ok (some (categoriaInvalidaMsg c))
        | none => .ok none

/-- `main.py` lines 34-48: `validar` as the pure function the callers
see — `some msg` is a rejection, `none` is acceptance. -/
def validar (nombre : List Char) (precio : PrecioVal)
    (categorias : List (List Char)) : Option (List Char) :=
  if nombre = [] ∨ (pyStrip nombre).length = 0 ∨ 20 < (pyStrip nombre).length then
    some nombreMsg
  else
    match pyFloat precio with
    | .error _ => some precioParseMsg
    | .ok p =>
      if ¬(0 < p ∧ p < 999) then some precioRangeMsg
      else if categorias = [] then some categoriaVaciaMsg
      else
        match firstInvalidCat categorias with
        | some c => some (categoriaInvalidaMsg c)
        | none => none

/-- `main.py` line 133: `en_venta = st.radio(...) == "Sí"` — the raw
on-sale label is coerced to a boolean by comparison with `"Sí"`. -/
def en_venta_of_label (label : List Char) : Bool :=
  label = "Sí".data

/-- One row payload as written by `sb_insert` / `sb_update`
(`main.py` lines 102-119); `ts` and `id_product` are storage-assigned
and irrelevant to the field invariants, so they are not modelled. -/
structure Payload where
  nombre : List Char
  precio : ℚ
  categorias : List Char
  en_venta : Bool
deriving DecidableEq

/-- `main.py` lines 102-110: the fragment `sb_insert` sends to the table —
categories are encoded with `categorias_to_string`. -/
def sb_insert (nombre : List Char) (precio : ℚ)
    (categorias : List (List Char)) (en_venta : Bool) : Payload :=
  ⟨nombre, precio, categorias_to_string categorias, en_venta⟩

/-- `main.py` lines 112-119: the fragment `sb_update` writes over an
existing row (same four fields; no `ts`). -/
def sb_update (nombre : List Char) (precio : ℚ)
    (categorias : List (List Char)) (en_venta : Bool) : Payload :=
  ⟨nombre, precio, categorias_to_string categorias, en_venta⟩

/-- `main.py` lines 136-147: the create path.  On submit, `validar` runs
first; only if it returns no error is
`sb_insert(nombre.strip(), float(precio), categorias, en_venta)` called.
Returns the payload written, or `none` when nothing is written. -/
def create_submit (nombre : List Char) (precio : PrecioVal)
    (categorias : List (List Char)) (en_venta : Bool) : Option Payload :=
  match validar nombre precio categorias with
  | some _ => none
  | none =>
    match pyFloat precio with
    | .ok p => some (sb_insert (pyStrip nombre) p categorias en_venta)
    | .error _ => none

/-- `main.py` lines 296-307: the update path — `validar` first, then
`sb_update(id, ed_nombre.strip(), float(ed_precio), ed_categorias,
ed_en_venta)`.  Returns the payload written, or `none`. -/
def update_submit (nombre : List Char) (precio : PrecioVal)
    (categorias : List (List Char)) (en_venta : Bool) : Option Payload :=
  match validar nombre precio categorias with
  | some _ => none
  | none =>
    match pyFloat precio with
    | .ok p => some (sb_update (pyStrip nombre) p categorias en_venta)
    | .error _ => none

/-- The create path from the raw on-sale radio label (`main.py`
lines 133 and 136-147): the label is coerced by `en_venta_of_label`
before submission and never inspected by `validar`. -/
def create_submit_raw (nombre : List Char) (precio : PrecioVal)
    (categorias : List (List Char)) (label : List Char) : Option Payload :=
  create_submit nombre precio categorias (en_venta_of_label label)

/-- One storage transition: a validated create (`main.py` 136-147), a
validated update (296-307), or an unconditional delete (309-312). -/
inductive Step : List Payload → List Payload → Prop
  | create (s : List Payload) (n : List Char) (pv : PrecioVal)
      (cats : List (List Char)) (b : Bool) (pl : Payload) :
      create_submit n pv cats b = some pl → Step s (s ++ [pl])
  | update (s : List Payload) (i : Nat) (n : List Char) (pv : PrecioVal)
      (cats : List (List Char)) (b : Bool) (pl : Payload) :
      update_submit n pv cats b = some pl → Step s (s.set i pl)
  | delete (s : List Payload) (i : Nat) : Step s (s.eraseIdx i)

/-- Storage states reachable from the empty table through the app. -/
inductive Reachable : List Payload → Prop
  | empty : Reachable []
  | step {s t : List Payload} : Reachable s → Step s t → Reachable t

/-- The field invariants of a stored product: trimmed name of 1-20
characters, price strictly between 0 and 999, and a non-empty category
collection drawn from the catalog (read back through the `;` encoding). -/
def ValidPayload (pl : Payload) : Prop :=
  pyStrip pl.nombre = pl.nombre ∧
  1 ≤ pl.nombre.length ∧ pl.nombre.length ≤ 20 ∧
  0 < pl.precio ∧ pl.precio < 999 ∧
  categorias_to_list (.str pl.categorias) ≠ [] ∧
  ∀ c ∈ categorias_to_list (.str pl.categorias), c ∈ ALLOWED_CATEGORIES

instance : DecidablePred ValidPayload := fun pl => by
  unfold ValidPayload; infer_instance

/-! ### Helper lemmas about `pyStrip` -/

theorem dropWhile_eq_self_of_head {α : Type} (p : α → Bool) (l : List α)
    (h : ∀ a t, l = a :: t → p a = false) : List.dropWhile p l = l := by
  cases l with
  | nil => rfl
  | cons a t => rw [List.dropWhile_cons, h a t rfl]; simp

theorem head_false_of_dropWhile {α : Type} (p : α → Bool) (l : List α) (a : α)
    (s : List α) (h : List.dropWhile p l = a :: s) : p a = false := by
  induction l with
  | nil => simp at h
  | cons x xs ih =>
    rw [List.dropWhile_cons] at h
    by_cases hx : p x
    · rw [if_pos hx] at h; exact ih h
    · rw [if_neg hx] at h
      cases h
      simpa using hx

theorem pyStrip_def (l : List Char) :
    pyStrip l = List.rdropWhile Char.isWhitespace (List.dropWhile Char.isWhitespace l) :=
  rfl

theorem pyStrip_nil : pyStrip [] = [] := rfl

theorem dropWhile_pyStrip (l : List Char) :
    List.dropWhile Char.isWhitespace (pyStrip l) = pyStrip l := by
  apply dropWhile_eq_self_of_head
  intro a t h
  obtain ⟨u, hu⟩ := List.rdropWhile_prefix (p := Char.isWhitespace)
      (l := List.dropWhile Char.isWhitespace l)
  rw [pyStrip_def] at h
  rw [h] at hu
  exact head_false_of_dropWhile Char.isWhitespace l a (t ++ u) (by rw [← hu]; simp)

theorem pyStrip_idempotent (l : List Char) : pyStrip (pyStrip l) = pyStrip l := by
  rw [pyStrip_def (pyStrip l), dropWhile_pyStrip, pyStrip_def]
  exact List.rdropWhile_idempotent _ _

/-! ### Characterization of `validar` -/

theorem validar_eq_none_iff (n : List Char) (pv : PrecioVal) (cats : List (List Char)) :
    validar n pv cats = none ↔
      (1 ≤ (pyStrip n).length ∧ (pyStrip n).length ≤ 20) ∧
      (∃ p : ℚ, pyFloat pv = Except.ok p ∧ 0 < p ∧ p < 999) ∧
      cats ≠ [] ∧ ∀ c ∈ cats, c ∈ ALLOWED_CATEGORIES := by
  unfold validar
  cases pv with
  | invalid =>
    constructor
    · intro h
      split at h <;> simp_all [pyFloat]
    · rintro ⟨-, ⟨p, hp, -⟩, -⟩
      simp [pyFloat] at hp
  | num q =>
    constructor
    · intro h
      split at h
      case isTrue => simp at h
      case isFalse hname =>
        simp only [pyFloat] at h
        split at h
        case isTrue => simp at h
        case isFalse hrange =>
          split at h
          case isTrue => simp at h
          case isFalse hcats =>
            cases hfind : firstInvalidCat cats with
            | some c => rw [hfind] at h; simp at h
            | none =>
              rw [hfind] at h
              push_neg at hname
              rw [not_not] at hrange
              refine ⟨⟨by omega, by omega⟩, ⟨q, rfl, hrange.1, hrange.2⟩, hcats, ?_⟩
              intro c hc
              have := List.find?_eq_none.mp hfind c hc
              simpa using this
    · rintro ⟨⟨hl1, hl2⟩, ⟨p, hp, hp1, hp2⟩, hc, hm⟩
      have hq : p = q := by simpa [pyFloat] using hp.symm
      subst hq
      have hn0 : n ≠ [] := by
        intro h0; rw [h0, pyStrip_nil] at hl1; simp at hl1
      rw [if_neg (by push_neg; exact ⟨hn0, by omega, by omega⟩)]
      simp only [pyFloat]
      rw [if_neg (not_not.mpr ⟨hp1, hp2⟩), if_neg hc]
      have hfind : firstInvalidCat cats = none := by
        unfold firstInvalidCat
        rw [List.find?_eq_none]
        intro c hcm
        simpa using hm c hcm
      rw [hfind]

theorem validar_name_reject (n : List Char) (pv : PrecioVal) (cats : List (List Char))
    (h : (pyStrip n).length = 0 ∨ 20 < (pyStrip n).length) :
    validar n pv cats = some nombreMsg := by
  unfold validar
  rw [if_pos (Or.inr h)]

theorem validar_range_reject (n : List Char) (cats : List (List Char)) (q : ℚ)
    (hn1 : 1 ≤ (pyStrip n).length) (hn2 : (pyStrip n).length ≤ 20)
    (hq : ¬(0 < q ∧ q < 999)) :
    validar n (.num q) cats = some precioRangeMsg := by
  unfold validar
  have hn0 : n ≠ [] := by
    intro h0; rw [h0, pyStrip_nil] at hn1; simp at hn1
  rw [if_neg (by push_neg; exact ⟨hn0, by omega, by omega⟩)]
  simp only [pyFloat]
  rw [if_pos hq]

theorem validar_cat_reject (n : List Char) (cats : List (List Char)) (q : ℚ)
    (c : List Char)
    (hn1 : 1 ≤ (pyStrip n).length) (hn2 : (pyStrip n).length ≤ 20)
    (hq1 : 0 < q) (hq2 : q < 999)
    (hfind : firstInvalidCat cats = some c) :
    validar n (.num q) cats = some (categoriaInvalidaMsg c) := by
  unfold validar
  have hn0 : n ≠ [] := by
    intro h0; rw [h0, pyStrip_nil] at hn1; simp at hn1
  have hcne : cats ≠ [] := by
    intro h0
    rw [h0] at hfind
    simp [firstInvalidCat] at hfind
  rw [if_neg (by push_neg; exact ⟨hn0, by omega, by omega⟩)]
  simp only [pyFloat]
  rw [if_neg (not_not.mpr ⟨hq1, hq2⟩), if_neg hcne, hfind]

/-! ### Round-trip of the `;` category encoding -/

theorem splitSemi_cons (c : Char) (rest : List Char) :
    splitSemi (c :: rest) =
      if c = ';' then [] :: splitSemi rest
      else
        match splitSemi rest with
        | [] => [[c]]
        | h :: t => (c :: h) :: t := rfl

theorem splitSemi_no_semi (p : List Char) (hp : ';' ∉ p) : splitSemi p = [p] := by
  induction p with
  | nil => rfl
  | cons c q ih =>
    have hc : c ≠ ';' := by rintro rfl; exact hp (List.mem_cons_self _ _)
    have hq : ';' ∉ q := fun hm => hp (List.mem_cons_of_mem _ hm)
    rw [splitSemi_cons, if_neg hc, ih hq]

theorem splitSemi_append (p r : List Char) (hp : ';' ∉ p)
    (h : List Char) (t : List (List Char)) (hr : splitSemi r = h :: t) :
    splitSemi (p ++ r) = (p ++ h) :: t := by
  induction p with
  | nil => simpa using hr
  | cons c q ih =>
    have hc : c ≠ ';' := by rintro rfl; exact hp (List.mem_cons_self _ _)
    have hq : ';' ∉ q := fun hm => hp (List.mem_cons_of_mem _ hm)
    rw [List.cons_append, splitSemi_cons, if_neg hc, ih hq]
    rfl

theorem categorias_to_list_str (s : List Char) :
    categorias_to_list (.str s) = ((splitSemi s).map pyStrip).filter (fun p => p ≠ []) :=
  rfl

theorem cats_roundtrip : ∀ l : List (List Char),
    (∀ p ∈ l, p ≠ [] ∧ ';' ∉ p ∧ pyStrip p = p) →
    categorias_to_list (.str (categorias_to_string l)) = l := by
  intro l
  induction l with
  | nil => intro _; rfl
  | cons p rest ih =>
    intro h
    obtain ⟨hpne, hpsemi, hpstrip⟩ := h p (List.mem_cons_self _ _)
    have hrest : ∀ x ∈ rest, x ≠ [] ∧ ';' ∉ x ∧ pyStrip x = x :=
      fun x hx => h x (List.mem_cons_of_mem _ hx)
    cases rest with
    | nil =>
      rw [categorias_to_list_str]
      show ((splitSemi p).map pyStrip).filter (fun x => x ≠ []) = [p]
      rw [splitSemi_no_semi p hpsemi]
      simp [hpstrip, hpne]
    | cons q rest2 =>
      have hj : categorias_to_string (p :: q :: rest2) =
          p ++ ';' :: categorias_to_string (q :: rest2) := rfl
      have hsplit : splitSemi (';' :: categorias_to_string (q :: rest2)) =
          [] :: splitSemi (categorias_to_string (q :: rest2)) := by
        rw [splitSemi_cons, if_pos rfl]
      have hmain := splitSemi_append p (';' :: categorias_to_string (q :: rest2)) hpsemi
          [] (splitSemi (categorias_to_string (q :: rest2))) hsplit
      rw [categorias_to_list_str, hj, hmain, List.append_nil, List.map_cons, hpstrip,
        List.filter_cons_of_pos (by simpa using hpne)]
      have ihr := ih hrest
      rw [categorias_to_list_str] at ihr
      rw [ihr]

/-! ### Validity of written fragments -/

theorem catalog_labels_good :
    ∀ p ∈ ALLOWED_CATEGORIES, p ≠ [] ∧ ';' ∉ p ∧ pyStrip p = p := by decide

theorem create_submit_eq_some (n : List Char) (pv : PrecioVal)
    (cats : List (List Char)) (b : Bool) (p : ℚ)
    (hv : validar n pv cats = none) (hp : pyFloat pv = Except.ok p) :
    create_submit n pv cats b = some (sb_insert (pyStrip n) p cats b) := by
  unfold create_submit
  rw [hv, hp]

theorem update_submit_eq_some (n : List Char) (pv : PrecioVal)
    (cats : List (List Char)) (b : Bool) (p : ℚ)
    (hv : validar n pv cats = none) (hp : pyFloat pv = Except.ok p) :
    update_submit n pv cats b = some (sb_update (pyStrip n) p cats b) := by
  unfold update_submit
  rw [hv, hp]

theorem sb_insert_valid (n : List Char) (pv : PrecioVal)
    (cats : List (List Char)) (b : Bool) (p : ℚ)
    (hv : validar n pv cats = none) (hp : pyFloat pv = Except.ok p) :
    ValidPayload (sb_insert (pyStrip n) p cats b) := by
  rw [validar_eq_none_iff] at hv
  obtain ⟨⟨hl1, hl2⟩, ⟨p', hp', hr1, hr2⟩, hcne, hm⟩ := hv
  rw [hp] at hp'
  injection hp' with hpp
  subst hpp
  have hgood : ∀ x ∈ cats, x ≠ [] ∧ ';' ∉ x ∧ pyStrip x = x :=
    fun x hx => catalog_labels_good x (hm x hx)
  have hdec : categorias_to_list (.str (categorias_to_string cats)) = cats :=
    cats_roundtrip cats hgood
  refine ⟨pyStrip_idempotent n, hl1, hl2, hr1, hr2, ?_, ?_⟩
  · show categorias_to_list (.str (categorias_to_string cats)) ≠ []
    rw [hdec]; exact hcne
  · show ∀ c ∈ categorias_to_list (.str (categorias_to_string cats)), c ∈ ALLOWED_CATEGORIES
    rw [hdec]; exact hm

theorem create_submit_valid (n : List Char) (pv : PrecioVal)
    (cats : List (List Char)) (b : Bool) (pl : Payload)
    (h : create_submit n pv cats b = some pl) : ValidPayload pl := by
  unfold create_submit at h
  cases hv : validar n pv cats with
  | some msg => rw [hv] at h; simp at h
  | none =>
    rw [hv] at h
    cases hp : pyFloat pv with
    | error e => rw [hp] at h; simp at h
    | ok p =>
      rw [hp] at h
      injection h with hpl
      rw [← hpl]
      exact sb_insert_valid n pv cats b p hv hp

theorem update_submit_valid (n : List Char) (pv : PrecioVal)
    (cats : List (List Char)) (b : Bool) (pl : Payload)
    (h : update_submit n pv cats b = some pl) : ValidPayload pl := by
  unfold update_submit at h
  cases hv : validar n pv cats with
  | some msg => rw [hv] at h; simp at h
  | none =>
    rw [hv] at h
    cases hp : pyFloat pv with
    | error e => rw [hp] at h; simp at h
    | ok p =>
      rw [hp] at h
      injection h with hpl
      rw [← hpl]
      exact sb_insert_valid n pv cats b p hv hp

theorem step_preserves_valid (s t : List Payload) (hs : Step s t)
    (hinv : ∀ pl ∈ s, ValidPayload pl) : ∀ pl ∈ t, ValidPayload pl := by
  cases hs with
  | create n pv cats b pl hcr =>
    intro x hx
    rcases List.mem_append.mp hx with hxs | hxp
    · exact hinv x hxs
    · rw [List.mem_singleton.mp hxp]
      exact create_submit_valid n pv cats b pl hcr
  | update i n pv cats b pl hup =>
    intro x hx
    rcases List.mem_or_eq_of_mem_set hx with hxs | hxp
    · exact hinv x hxs
    · rw [hxp]
      exact update_submit_valid n pv cats b pl hup
  | delete i =>
    intro x hx
    exact hinv x (List.mem_of_mem_eraseIdx hx)

/-- C1: every reachable storage state contains only payloads satisfying
the field invariants — both the create path (`main.py` 136-147) and the
update path (296-307) write only after `validar` returned success, so
every stored product has a trimmed 1-20 character name, a price strictly
between 0 and 999, and a non-empty category collection drawn from the
catalog. -/
theorem C1_storage_invariant (s : List Payload) (h : Reachable s) :
    ∀ pl ∈ s, ValidPayload pl := by
  induction h with
  | empty => intro pl hpl; simp at hpl
  | step _ hstep ih => exact step_preserves_valid _ _ hstep ih

theorem C1_storage_invariant_witness :
    ValidPayload ⟨"Trufa".data, 5, "Chocolates".data, true⟩ :=
  C1_storage_invariant [⟨"Trufa".data, 5, "Chocolates".data, true⟩]
    (Reachable.step Reachable.empty
      (Step.create [] "Trufa".data (.num 5) ["Chocolates".data] true
        ⟨"Trufa".data, 5, "Chocolates".data, true⟩ (by decide)))
    ⟨"Trufa".data, 5, "Chocolates".data, true⟩ (List.mem_singleton.mpr rfl)

/-! ### C2, C3: what the create path actually stores -/

/-- C2 (amended): the price in the fragment passed to storage is the
parsed price exactly as parsed — `main.py` line 145 passes
`float(precio)` through with no rounding. -/
theorem C2_price_unrounded (n : List Char) (pv : PrecioVal)
    (cats : List (List Char)) (b : Bool) (p : ℚ)
    (h : validar n pv cats = none) (hp : pyFloat pv = Except.ok p) :
    (create_submit n pv cats b).map Payload.precio = some p := by
  rw [create_submit_eq_some n pv cats b p h hp]
  rfl

theorem C2_price_unrounded_witness :
    (create_submit "Trufa".data (.num (mkRat 3111 200)) ["Chocolates".data] true).map
      Payload.precio = some (mkRat 3111 200) :=
  C2_price_unrounded _ _ _ true (mkRat 3111 200) (by decide) rfl

/-- C2 counterexample: the accepted price 15.555 ( = 3111/200) is stored
as exactly 15.555, which is not expressible with 2 decimal places, so the
claimed rounding before storage does not happen. -/
theorem C2_counterexample :
    (create_submit "Trufa".data (.num (mkRat 3111 200)) ["Chocolates".data] true).map
      Payload.precio = some (mkRat 3111 200) ∧
    ¬ ∃ z : ℤ, (mkRat 3111 200 : ℚ) = (z : ℚ) / 100 := by
  constructor
  · decide
  · rintro ⟨z, hz⟩
    have hq : (mkRat 3111 200 : ℚ) = 3111 / 200 := by norm_num [mkRat, Rat.normalize]
    rw [hq] at hz
    have h2 : (2 * z : ℚ) = 3111 := by
      field_simp at hz
      linarith
    have h3 : (2 * z : ℤ) = 3111 := by exact_mod_cast h2
    omega

/-- C3 (amended): the categories passed to storage are the submitted
collection encoded in submission order by `categorias_to_string` — no
deduplication and no sorting (`main.py` lines 106 and 145). -/
theorem C3_categories_passthrough (n : List Char) (pv : PrecioVal)
    (cats : List (List Char)) (b : Bool)
    (h : validar n pv cats = none) :
    (create_submit n pv cats b).map Payload.categorias =
      some (categorias_to_string cats) := by
  obtain ⟨-, ⟨p, hp, -, -⟩, -, -⟩ := (validar_eq_none_iff n pv cats).mp h
  rw [create_submit_eq_some n pv cats b p h hp]
  rfl

theorem C3_categories_passthrough_witness :
    (create_submit "Trufa".data (.num 5) ["Chocolates".data, "Chocolates".data] true).map
      Payload.categorias =
      some (categorias_to_string ["Chocolates".data, "Chocolates".data]) :=
  C3_categories_passthrough _ _ _ true (by decide)

/-- C3 counterexample: `["Chocolates","Chocolates"]` is accepted, but the
stored category string is `"Chocolates;Chocolates"`, not the deduplicated
single-element `"Chocolates"` the claim states. -/
theorem C3_counterexample :
    validar "Trufa".data (.num 5) ["Chocolates".data, "Chocolates".data] = none ∧
    (create_submit "Trufa".data (.num 5) ["Chocolates".data, "Chocolates".data] true).map
      Payload.categorias = some "Chocolates;Chocolates".data ∧
    "Chocolates;Chocolates".data ≠ "Chocolates".data := by
  exact ⟨by decide, by decide, by decide⟩

/-! ### C4: there is no on-sale check -/

/-- C4 (amended): `validar` never inspects the on-sale label — acceptance
of a submission is exactly acceptance of name/price/categories, for every
raw label, and the label is only coerced to a boolean by comparison with
`"Sí"` (`main.py` line 133) and stored as-is. -/
theorem C4_no_onsale_check (n : List Char) (pv : PrecioVal)
    (cats : List (List Char)) (label : List Char) :
    (create_submit_raw n pv cats label).isSome = (validar n pv cats).isNone ∧
    (create_submit_raw n pv cats label).map Payload.en_venta =
      if validar n pv cats = none then some (en_venta_of_label label) else none := by
  unfold create_submit_raw create_submit
  cases hv : validar n pv cats with
  | some msg => simp
  | none =>
    obtain ⟨-, ⟨p, hp, -, -⟩, -, -⟩ := (validar_eq_none_iff n pv cats).mp hv
    rw [hp]
    simp [sb_insert]

/-- C4 counterexample: the label `"Quizás"` is neither of the two locale
tokens, yet the submission is accepted and written (with `en_venta =
false`) — no `InvalidOnSaleFlag` rejection exists in the code. -/
theorem C4_counterexample :
    ("Quizás".data ≠ "Sí".data ∧ "Quizás".data ≠ "No".data) ∧
    create_submit_raw "Trufa".data (.num 5) ["Chocolates".data] "Quizás".data =
      some ⟨"Trufa".data, 5, "Chocolates".data, false⟩ := by
  exact ⟨⟨by decide, by decide⟩, by decide⟩

/-! ### C5: `validar` never lets an exception escape -/

/-- C5: for every input — any name, any price value including ones on
which `float` raises, any category collection — the embedded-with-
exceptions `validarE` returns `Except.ok` of the structured result of
`validar`: the `try/except` of `main.py` lines 37-40 catches the parse
failure and turns it into a rejection, and no other operation raises. -/
theorem C5_never_raises (n : List Char) (pv : PrecioVal)
    (cats : List (List Char)) :
    validarE n pv cats = Except.ok (validar n pv cats) := by
  unfold validarE validar
  cases pv <;> simp only [pyFloat] <;> split_ifs <;> try rfl
  all_goals cases firstInvalidCat cats <;> rfl

/-! ### C6-C8: the individual checks of `validar` -/

/-- C6: whenever the whitespace-trimmed name has length 0 or more than 20
characters, `validar` rejects with the name message — the name check is
first (`main.py` lines 35-36), so the other fields never matter. -/
theorem C6_name_reject (n : List Char) (pv : PrecioVal)
    (cats : List (List Char))
    (h : (pyStrip n).length = 0 ∨ 20 < (pyStrip n).length) :
    validar n pv cats = some nombreMsg :=
  validar_name_reject n pv cats h

theorem C6_name_reject_witness :
    validar (List.replicate 21 'a') (.num 5) ["Chocolates".data] = some nombreMsg :=
  C6_name_reject (List.replicate 21 'a') (.num 5) ["Chocolates".data] (by decide)

/-- C7: with a valid name and valid categories, a parseable price `p` is
accepted iff `0 < p < 999` (open interval, `main.py` line 41), and any
boundary or out-of-range price is rejected with the range message. -/
theorem C7_price_boundary (n : List Char) (cats : List (List Char)) (q : ℚ)
    (hn1 : 1 ≤ (pyStrip n).length) (hn2 : (pyStrip n).length ≤ 20)
    (hc : cats ≠ []) (hm : ∀ c ∈ cats, c ∈ ALLOWED_CATEGORIES) :
    (validar n (.num q) cats = none ↔ 0 < q ∧ q < 999) ∧
    (¬(0 < q ∧ q < 999) → validar n (.num q) cats = some precioRangeMsg) := by
  constructor
  · rw [validar_eq_none_iff]
    constructor
    · rintro ⟨-, ⟨p, hp, hp1, hp2⟩, -, -⟩
      have : p = q := by simpa [pyFloat] using hp.symm
      subst this
      exact ⟨hp1, hp2⟩
    · rintro ⟨hq1, hq2⟩
      exact ⟨⟨hn1, hn2⟩, ⟨q, rfl, hq1, hq2⟩, hc, hm⟩
  · intro hq
    exact validar_range_reject n cats q hn1 hn2 hq

theorem C7_price_boundary_witness :
    validar "Trufa".data (.num (mkRat 1 100)) ["Chocolates".data] = none ∧
    validar "Trufa".data (.num (mkRat 99899 100)) ["Chocolates".data] = none ∧
    validar "Trufa".data (.num 0) ["Chocolates".data] = some precioRangeMsg ∧
    validar "Trufa".data (.num 999) ["Chocolates".data] = some precioRangeMsg := by
  refine ⟨?_, ?_, ?_, ?_⟩
  · exact (C7_price_boundary "Trufa".data ["Chocolates".data] (mkRat 1 100)
      (by decide) (by decide) (by decide) (by decide)).1.mpr (by norm_num [mkRat, Rat.normalize])
  · exact (C7_price_boundary "Trufa".data ["Chocolates".data] (mkRat 99899 100)
      (by decide) (by decide) (by decide) (by decide)).1.mpr (by norm_num [mkRat, Rat.normalize])
  · exact (C7_price_boundary "Trufa".data ["Chocolates".data] 0
      (by decide) (by decide) (by decide) (by decide)).2 (by norm_num)
  · exact (C7_price_boundary "Trufa".data ["Chocolates".data] 999
      (by decide) (by decide) (by decide) (by decide)).2 (by norm_num)

/-- C8: a category collection containing a label outside the catalog is
always rejected — whatever the name, the price, or the on-sale label —
and when the other fields are valid the rejection names the offending
label (`main.py` lines 45-47). -/
theorem C8_unknown_category (n : List Char) (pv : PrecioVal)
    (cats : List (List Char))
    (h : ∃ x ∈ cats, x ∉ ALLOWED_CATEGORIES) :
    validar n pv cats ≠ none ∧
    (∀ label b, create_submit n pv cats b = none ∧
      create_submit_raw n pv cats label = none) ∧
    (∀ q : ℚ, pv = .num q → 1 ≤ (pyStrip n).length → (pyStrip n).length ≤ 20 →
      0 < q → q < 999 →
      ∃ c ∈ cats, c ∉ ALLOWED_CATEGORIES ∧
        validar n pv cats = some (categoriaInvalidaMsg c)) := by
  have hne : validar n pv cats ≠ none := by
    intro hv
    obtain ⟨-, -, -, hm⟩ := (validar_eq_none_iff n pv cats).mp hv
    obtain ⟨x, hx, hxn⟩ := h
    exact hxn (hm x hx)
  refine ⟨hne, ?_, ?_⟩
  · intro label b
    have hcs : ∀ b2 : Bool, create_submit n pv cats b2 = none := by
      intro b2
      unfold create_submit
      cases hv : validar n pv cats with
      | some msg => rfl
      | none => exact absurd hv hne
    exact ⟨hcs b, hcs (en_venta_of_label label)⟩
  · intro q hpv hn1 hn2 hq1 hq2
    subst hpv
    cases hfind : firstInvalidCat cats with
    | none =>
      exfalso
      obtain ⟨x, hx, hxn⟩ := h
      have := List.find?_eq_none.mp hfind x hx
      simp at this
      exact hxn this
    | some c =>
      refine ⟨c, List.mem_of_find?_eq_some hfind, ?_, ?_⟩
      · have := List.find?_some hfind
        simpa using this
      · exact validar_cat_reject n cats q c hn1 hn2 hq1 hq2 hfind

theorem C8_unknown_category_witness :
    validar "Trufa".data (.num 5) ["Lacteos".data] =
      some (categoriaInvalidaMsg "Lacteos".data) := by
  obtain ⟨c, hc, -, heq⟩ :=
    (C8_unknown_category "Trufa".data (.num 5) ["Lacteos".data] (by decide)).2.2
      5 rfl (by decide) (by decide) (by decide) (by decide)
  rw [List.mem_singleton.mp hc] at heq
  exact heq

/-! ### C9: idempotence of normalization -/

/-- C9: re-validating the canonical fragment of an accepted input — the
trimmed name, the parsed price, and the categories exactly as submitted —
succeeds again: trimming is idempotent and the other fields re-pass the
same checks. -/
theorem C9_revalidate (n : List Char) (pv : PrecioVal)
    (cats : List (List Char)) (p : ℚ)
    (h : validar n pv cats = none) (hp : pyFloat pv = Except.ok p) :
    validar (pyStrip n) (.num p) cats = none := by
  rw [validar_eq_none_iff] at h ⊢
  obtain ⟨⟨hl1, hl2⟩, ⟨p', hp', hr1, hr2⟩, hc, hm⟩ := h
  rw [hp] at hp'
  injection hp' with hpp
  subst hpp
  rw [pyStrip_idempotent]
  exact ⟨⟨hl1, hl2⟩, ⟨p, rfl, hr1, hr2⟩, hc, hm⟩

theorem C9_revalidate_witness :
    validar (pyStrip " Trufa ".data) (.num 5) ["Chocolates".data] = none :=
  C9_revalidate " Trufa ".data (.num 5) ["Chocolates".data] 5 (by decide) rfl

/-! ### C10: round-trip of the category encoding -/

/-- C10: for every list of labels that are non-empty, contain no `;`, and
carry no surrounding whitespace (in particular all catalog labels),
`categorias_to_list` inverts `categorias_to_string`; and on any
non-string value `categorias_to_list` returns the empty list. -/
theorem C10_roundtrip (l : List (List Char))
    (h : ∀ p ∈ l, p ≠ [] ∧ ';' ∉ p ∧ pyStrip p = p) :
    categorias_to_list (.str (categorias_to_string l)) = l ∧
    ∀ t : Nat, categorias_to_list (.notStr t) = [] :=
  ⟨cats_roundtrip l h, fun _ => rfl⟩

theorem C10_roundtrip_witness :
    categorias_to_list (.str (categorias_to_string ALLOWED_CATEGORIES)) =
      ALLOWED_CATEGORIES :=
  (C10_roundtrip ALLOWED_CATEGORIES (by decide)).1
